import Mathlib

/-!
Verification of the Betfair instrument-resolution pipeline
(`nautilus_trader/adapters/betfair/providers.py`).

The Python source is shallowly embedded: each `def`/method below mirrors one
function of the source file.  External effects (remote calls to the Betfair
client, log output) are made explicit in the return values: functions that
may issue a remote call return the number of remote calls performed, and
`get_betting_instrument` reports whether it performed a linear scan and
whether it emitted the zero-match warning.  `time.time_ns()` stamps are
passed in as explicit nanosecond arguments, and `pd.Timestamp` (an external
library) is embedded as a constructor that keeps its input.
-/

namespace BetfairProvider

/-- Embeds `pd.Timestamp`: either parsed from a string, or the sentinel
`pd.Timestamp(0, tz="UTC")` used when a market definition has no market
time.  The pandas parse itself is external library code; we keep the raw
input, which is all the provider ever does with it. -/
inductive PdTimestamp
  | ofString (s : String)
  | epochUTC
deriving DecidableEq, Repr

/-- A runner entry of a `MarketCatalogue` (betfair_parser catalog shape):
the fields `providers.py` reads are `runner_id`, `runner_name`, `handicap`. -/
structure CatalogRunner where
  runner_id : Int
  runner_name : String
  handicap : Option String
deriving DecidableEq, Repr

structure CatalogEventType where
  id : Int
  name : String
deriving DecidableEq, Repr

structure CatalogCompetition where
  id : String
  name : String
deriving DecidableEq, Repr

structure CatalogEvent where
  id : String
  name : String
  country_code : Option String
  open_date : String
deriving DecidableEq, Repr

structure CatalogBettingType where
  name : String
deriving DecidableEq, Repr

structure CatalogDescription where
  betting_type : CatalogBettingType
  market_type : String
deriving DecidableEq, Repr

/-- The catalog-query response shape (`MarketCatalogue`), restricted to the
fields `market_catalog_to_instruments` reads. -/
structure MarketCatalogue where
  event_type : CatalogEventType
  competition : Option CatalogCompetition
  event : CatalogEvent
  description : CatalogDescription
  market_id : String
  market_name : String
  market_start_time : String
  runners : List CatalogRunner
deriving DecidableEq, Repr

/-- A runner of a streaming `MarketDefinition`; `providers.py` reads
`selection_id`, `id`, `name` and `hc`. -/
structure DefinitionRunner where
  selection_id : Option Int
  id : Option Int
  name : Option String
  hc : Option String
deriving DecidableEq, Repr

/-- The streaming market-definition shape, restricted to the fields
`market_definition_to_instruments` reads. -/
structure MarketDefinition where
  event_type_id : String
  event_type_name : String
  competition_id : String
  competition_name : String
  event_id : String
  event_name : String
  country_code : String
  open_date : String
  betting_type : String
  market_id : String
  market_name : String
  market_time : Option String
  market_type : String
  runners : List DefinitionRunner
deriving DecidableEq, Repr

/-- The opaque `info` blob: the original upstream payload retained verbatim
(`msgspec` round-trips the record to JSON; we keep the record itself). -/
inductive InstrumentInfo
  | ofCatalog (c : MarketCatalogue)
  | ofDefinition (d : MarketDefinition)
deriving DecidableEq, Repr

/-- The normalized instrument record (`BettingInstrument`), with exactly the
constructor arguments passed in `providers.py`. -/
structure BettingInstrument where
  venue_name : String
  event_type_id : String
  event_type_name : String
  competition_id : String
  competition_name : String
  event_id : String
  event_name : String
  event_country_code : String
  event_open_date : PdTimestamp
  betting_type : String
  market_id : String
  market_name : String
  market_start_time : PdTimestamp
  market_type : String
  selection_id : String
  selection_name : String
  selection_handicap : String
  currency : String
  ts_event : Nat
  ts_init : Nat
  info : InstrumentInfo
deriving DecidableEq, Repr

/-- Canonical decimal rendering of a numeric string, mirroring Python's
`str(float(s))` on plain decimals: drop a leading `+`, strip redundant
leading zeros of the integer part and trailing zeros of the fraction, and
always keep one integer and one fraction digit (`"0" ↦ "0.0"`,
`"-0.50" ↦ "-0.5"`). -/
def canonDecimal (s : String) : String :=
  let cs := s.toList
  let signAndDigits : String × List Char :=
    match cs with
    | '-' :: rest => ("-", rest)
    | '+' :: rest => ("", rest)
    | _ => ("", cs)
  let sign := signAndDigits.1
  let ds := signAndDigits.2
  let intPartRaw := ds.takeWhile (fun c => c ≠ '.')
  let fracRaw := (ds.dropWhile (fun c => c ≠ '.')).drop 1
  let intPart :=
    let t := intPartRaw.dropWhile (fun c => c = '0')
    if t = [] then ['0'] else t
  let fracPart :=
    let t := (fracRaw.reverse.dropWhile (fun c => c = '0')).reverse
    if t = [] then ['0'] else t
  sign ++ String.mk intPart ++ "." ++ String.mk fracPart

/-- Modelled from the spec: `parse_handicap` is imported from
`nautilus_trader.adapters.betfair.parsing.requests`, which is not part of
this excerpt.  The spec requires one shared normalization function such
that raw handicap values that denote the same number yield identical
normalized representations across data sources (an absent or empty
handicap denotes the zero handicap). -/
def parse_handicap : Option String → String
  | none => "0.0"
  | some s => if s = "" then "0.0" else canonDecimal s

/-- Python truthiness-based `x or default` on an optional string
(`runner.name or ""`, `event.country_code or ""`): `None` and `""` are
falsy. -/
def pyOrString (x : Option String) (default : String) : String :=
  match x with
  | none => default
  | some s => if s = "" then default else s

/-- Python `x or y` on optional ints (`runner.selection_id or runner.id`):
`None` and `0` are falsy. -/
def pyOrInt (x y : Option Int) : Option Int :=
  match x with
  | none => y
  | some n => if n = 0 then y else some n

/-- Python `str` applied to an optional int: `str(None) = "None"`. -/
def pyStrOptInt : Option Int → String
  | none => "None"
  | some n => toString n

/-- `market_catalog_to_instruments`: one `BettingInstrument` per runner of
the catalog record.  `ts_event`/`ts_init` stand for the `time.time_ns()`
stamps taken at mapping time. -/
def market_catalog_to_instruments (market_catalog : MarketCatalogue) (currency : String)
    (ts_event ts_init : Nat) : List BettingInstrument :=
  market_catalog.runners.map (fun runner =>
    { venue_name := "BETFAIR"
      event_type_id := toString market_catalog.event_type.id
      event_type_name := market_catalog.event_type.name
      competition_id :=
        match market_catalog.competition with
        | some c => c.id
        | none => ""
      competition_name :=
        match market_catalog.competition with
        | some c => c.name
        | none => ""
      event_id := market_catalog.event.id
      event_name := market_catalog.event.name
      event_country_code := pyOrString market_catalog.event.country_code ""
      event_open_date := PdTimestamp.ofString market_catalog.event.open_date
      betting_type := market_catalog.description.betting_type.name
      market_id := market_catalog.market_id
      market_name := market_catalog.market_name
      market_start_time := PdTimestamp.ofString market_catalog.market_start_time
      market_type := market_catalog.description.market_type
      selection_id := toString runner.runner_id
      selection_name := runner.runner_name
      selection_handicap := parse_handicap runner.handicap
      currency := currency
      ts_event := ts_event
      ts_init := ts_init
      info := InstrumentInfo.ofCatalog market_catalog })

/-- `market_definition_to_instruments`: one `BettingInstrument` per runner
of the streaming market definition. -/
def market_definition_to_instruments (market_definition : MarketDefinition) (currency : String)
    (ts_event ts_init : Nat) : List BettingInstrument :=
  market_definition.runners.map (fun runner =>
    { venue_name := "BETFAIR"
      event_type_id := market_definition.event_type_id
      event_type_name := market_definition.event_type_name
      competition_id := market_definition.competition_id
      competition_name := market_definition.competition_name
      event_id := market_definition.event_id
      event_name := market_definition.event_name
      event_country_code := market_definition.country_code
      event_open_date := PdTimestamp.ofString market_definition.open_date
      betting_type := market_definition.betting_type
      market_id := market_definition.market_id
      market_name := market_definition.market_name
      market_start_time :=
        match market_definition.market_time with
        | some t => if t = "" then PdTimestamp.epochUTC else PdTimestamp.ofString t
        | none => PdTimestamp.epochUTC
      market_type := market_definition.market_type
      selection_id := pyStrOptInt (pyOrInt runner.selection_id runner.id)
      selection_name := pyOrString runner.name ""
      selection_handicap := parse_handicap runner.hc
      currency := currency
      ts_event := ts_event
      ts_init := ts_init
      info := InstrumentInfo.ofDefinition market_definition })

/-- `make_instruments`: dispatch on the upstream record shape. -/
def make_instruments (market : MarketCatalogue ⊕ MarketDefinition) (currency : String)
    (ts_event ts_init : Nat) : List BettingInstrument :=
  match market with
  | Sum.inl catalog => market_catalog_to_instruments catalog currency ts_event ts_init
  | Sum.inr definition => market_definition_to_instruments definition currency ts_event ts_init

/-- The composite lookup key of the registry cache, exactly as formed in
`get_betting_instrument`: `key = (market_id, selection_id, handicap)`. -/
abbrev RawKey := String × String × String

/-- The attribute names `get_betting_instrument` filters on (plus a few
other string attributes reachable through `search_instruments`); Python's
`getattr(ins, k)` is embedded as `BettingInstrument.getAttr`. -/
inductive FilterKey
  | market_id
  | selection_id
  | selection_handicap
  | event_name
  | event_type_name
  | market_name
deriving DecidableEq, Repr

def BettingInstrument.getAttr (ins : BettingInstrument) : FilterKey → String
  | FilterKey.market_id => ins.market_id
  | FilterKey.selection_id => ins.selection_id
  | FilterKey.selection_handicap => ins.selection_handicap
  | FilterKey.event_name => ins.event_name
  | FilterKey.event_type_name => ins.event_type_name
  | FilterKey.market_name => ins.market_name

/-- The mutable state of one `BetfairInstrumentProvider`:
`instruments` is the base-class registry (keyed by instrument identifier),
`cache` the composite-key memoization dict, `missing_instruments` the
warn-once set, `account_currency` the memoized currency code. -/
structure ProviderState where
  instruments : List (String × BettingInstrument)
  cache : List (RawKey × BettingInstrument)
  missing_instruments : List RawKey
  account_currency : Option String
deriving DecidableEq, Repr

/-- A provider as freshly constructed: empty registry, empty cache, empty
missing set, no memoized currency. -/
def ProviderState.init : ProviderState :=
  { instruments := [], cache := [], missing_instruments := [], account_currency := none }

/-- Modelled from the spec: the base-class `InstrumentProvider.add` (not in
this excerpt) inserts one record keyed by its own identifier, overwriting
on an identical identifier.  The identifier of a betting instrument is
derived from its market id, selection id and handicap. -/
def BettingInstrument.identifier (ins : BettingInstrument) : String :=
  ins.market_id ++ "-" ++ ins.selection_id ++ "-" ++ ins.selection_handicap

/-- Association-list update: overwrite in place, append when absent
(Python dict semantics). -/
def assocUpdate (l : List (String × BettingInstrument)) (k : String) (v : BettingInstrument) :
    List (String × BettingInstrument) :=
  match l with
  | [] => [(k, v)]
  | (k1, v1) :: tl => if k1 = k then (k, v) :: tl else (k1, v1) :: assocUpdate tl k v

/-- Modelled from the spec: base-class `add`, keyed by the instrument's own
identifier, idempotent overwrite. -/
def addInstrument (st : ProviderState) (ins : BettingInstrument) : ProviderState :=
  { st with instruments := assocUpdate st.instruments ins.identifier ins }

/-- Modelled from the spec: base-class `list_all` returns every loaded
instrument. -/
def list_all (st : ProviderState) : List BettingInstrument :=
  st.instruments.map (fun p => p.2)

/-- `search_instruments`: conjunctive exact-attribute filtering over all
loaded instruments; an empty (falsy) filter returns everything. -/
def search_instruments (st : ProviderState) (instrument_filter : List (FilterKey × String)) :
    List BettingInstrument :=
  let instruments := list_all st
  if instrument_filter.isEmpty then instruments
  else instruments.filter (fun ins =>
    instrument_filter.all (fun kv => ins.getAttr kv.1 == kv.2))

/-- Dict lookup in the memoization cache (`key in self._cache` /
`self._cache[key]`). -/
def lookupCache (cache : List (RawKey × BettingInstrument)) (key : RawKey) :
    Option BettingInstrument :=
  match cache with
  | [] => none
  | (k1, v1) :: tl => if k1 = key then some v1 else lookupCache tl key

/-- Set membership in the missing-instruments set. -/
def memKey (l : List RawKey) (key : RawKey) : Bool :=
  match l with
  | [] => false
  | k1 :: tl => if k1 = key then true else memKey tl key

/-- The component filter `get_betting_instrument` scans with: market id and
selection id verbatim, handicap normalized through `parse_handicap`. -/
def resolveFilter (market_id selection_id handicap : String) : List (FilterKey × String) :=
  [(FilterKey.market_id, market_id),
   (FilterKey.selection_id, selection_id),
   (FilterKey.selection_handicap, parse_handicap (some handicap))]

/-- Result of one `get_betting_instrument` call: the returned instrument
(`none` embeds Python's implicit `return`), the successor state, whether a
linear scan ran (`search_instruments` was called), and whether the
zero-match warning was logged. -/
structure ResolveResult where
  instrument : Option BettingInstrument
  state : ProviderState
  scanned : Bool
  warned : Bool
deriving DecidableEq, Repr

/-- `get_betting_instrument`, straight from the source: the cache key is the
raw `(market_id, selection_id, handicap)` triple; on a miss it scans with
the normalized-handicap filter; zero matches record the normalized triple
in the warn-once set and return nothing; otherwise `instruments[0]` is
memoized under the raw key and returned. -/
def get_betting_instrument (st : ProviderState)
    (market_id selection_id handicap : String) : ResolveResult :=
  let key : RawKey := (market_id, selection_id, handicap)
  match lookupCache st.cache key with
  | some ins => { instrument := some ins, state := st, scanned := false, warned := false }
  | none =>
    let instruments := search_instruments st (resolveFilter market_id selection_id handicap)
    match instruments with
    | [] =>
      let missKey : RawKey := (market_id, selection_id, parse_handicap (some handicap))
      if memKey st.missing_instruments missKey then
        { instrument := none, state := st, scanned := true, warned := false }
      else
        { instrument := none,
          state := { st with missing_instruments := missKey :: st.missing_instruments },
          scanned := true, warned := true }
    | first :: _ =>
      { instrument := some first,
        state := { st with cache := (key, first) :: st.cache },
        scanned := true, warned := false }

/-- Result of one `get_account_currency` call: the currency returned, the
successor state, and how many remote `get_account_details` calls were made. -/
structure CurrencyResult where
  currency : String
  state : ProviderState
  remote_calls : Nat
deriving DecidableEq, Repr

/-- `get_account_currency`: memoized fetch of the account currency;
`client_currency` is the `currencyCode` the remote client would return. -/
def get_account_currency (st : ProviderState) (client_currency : String) : CurrencyResult :=
  match st.account_currency with
  | some c => { currency := c, state := st, remote_calls := 0 }
  | none =>
    { currency := client_currency,
      state := { st with account_currency := some client_currency },
      remote_calls := 1 }

/-- Total number of remote `get_account_details` calls across `n`
successive `get_account_currency` invocations. -/
def account_currency_calls (st : ProviderState) (client_currency : String) : Nat → Nat
  | 0 => 0
  | n + 1 =>
    let r := get_account_currency st client_currency
    r.remote_calls + account_currency_calls r.state client_currency n

/-- A flattened navigation-tree leaf, with one string attribute per key of
`VALID_MARKET_FILTER_KEYS` (the attributes `navigation_to_flatten_markets`
can filter on). -/
structure FlattenedMarket where
  event_type_name : String
  event_type_id : String
  event_name : String
  event_id : String
  event_countryCode : String
  market_name : String
  market_id : String
  market_exchangeId : String
  market_marketType : String
  market_marketStartTime : String
  market_numberOfWinners : String
deriving DecidableEq, Repr

/-- `VALID_MARKET_FILTER_KEYS`, verbatim from the source. -/
def VALID_MARKET_FILTER_KEYS : List String :=
  ["event_type_name",
   "event_type_id",
   "event_name",
   "event_id",
   "event_countryCode",
   "market_name",
   "market_id",
   "market_exchangeId",
   "market_marketType",
   "market_marketStartTime",
   "market_numberOfWinners"]

/-- Attribute access on a flattened market by filter-key name. -/
def FlattenedMarket.getAttr (m : FlattenedMarket) (key : String) : Option String :=
  if key = "event_type_name" then some m.event_type_name
  else if key = "event_type_id" then some m.event_type_id
  else if key = "event_name" then some m.event_name
  else if key = "event_id" then some m.event_id
  else if key = "event_countryCode" then some m.event_countryCode
  else if key = "market_name" then some m.market_name
  else if key = "market_id" then some m.market_id
  else if key = "market_exchangeId" then some m.market_exchangeId
  else if key = "market_marketType" then some m.market_marketType
  else if key = "market_marketStartTime" then some m.market_marketStartTime
  else if key = "market_numberOfWinners" then some m.market_numberOfWinners
  else none

/-- Modelled from the spec: `navigation_to_flatten_markets` (betfair_parser
library, not in this excerpt) deterministically flattens the navigation
tree — embedded here as the already-flattened list — and keeps the markets
whose attributes match every supplied filter key/value pair. -/
def navigation_to_flatten_markets (navigation : List FlattenedMarket)
    (market_filter : List (String × String)) : List FlattenedMarket :=
  navigation.filter (fun m =>
    market_filter.all (fun kv => m.getAttr kv.1 == some kv.2))

/-- The ways `load_markets` can fail: the filter-key assertion, or the
`TypeError` raised by `**market_filter` when the filter is `None`. -/
inductive LoadError
  | assertionError
  | typeError
deriving DecidableEq, Repr

/-- The dict comprehension of `load_markets` that drops the
instrument-level keys `selection_id` and `selection_handicap`. -/
def dropIrrelevantKeys (market_filter : List (String × String)) : List (String × String) :=
  market_filter.filter (fun kv =>
    kv.1 != "selection_id" && kv.1 != "selection_handicap")

/-- `assert all(k in VALID_MARKET_FILTER_KEYS for k in (market_filter or []))`. -/
def filterKeysValid : Option (List (String × String)) → Bool
  | none => true
  | some f => f.all (fun kv => VALID_MARKET_FILTER_KEYS.contains kv.1)

/-- `load_markets`: drop the irrelevant keys (when the filter is a dict),
assert every remaining key is in the allow-list, then fetch navigation
(one remote call) and flatten/filter it.  `navigation` is the remote
response; the second component counts remote `list_navigation` calls
actually issued.  A `None` filter passes the assertion vacuously but then
raises a `TypeError` at the `**market_filter` unpacking — after the remote
call. -/
def load_markets (navigation : List FlattenedMarket)
    (market_filter : Option (List (String × String))) :
    Except LoadError (List FlattenedMarket) × Nat :=
  let mf := market_filter.map dropIrrelevantKeys
  if filterKeysValid mf then
    match mf with
    | some f => (Except.ok (navigation_to_flatten_markets navigation f), 1)
    | none => (Except.error LoadError.typeError, 1)
  else (Except.error LoadError.assertionError, 0)

/-- The `MarketProjection` enum members requested by
`load_markets_metadata`. -/
inductive MarketProjection
  | EVENT_TYPE
  | EVENT
  | COMPETITION
  | MARKET_DESCRIPTION
  | RUNNER_METADATA
  | RUNNER_DESCRIPTION
  | MARKET_START_TIME
deriving DecidableEq, Repr

/-- The fixed projection list passed on every metadata request. -/
def metadataProjection : List MarketProjection :=
  [MarketProjection.EVENT_TYPE,
   MarketProjection.EVENT,
   MarketProjection.COMPETITION,
   MarketProjection.MARKET_DESCRIPTION,
   MarketProjection.RUNNER_METADATA,
   MarketProjection.RUNNER_DESCRIPTION,
   MarketProjection.MARKET_START_TIME]

/-- One remote `list_market_catalogue` request as issued by
`load_markets_metadata`. -/
structure CatalogueRequest where
  market_projection : List MarketProjection
  marketIds : List String
  max_results : Nat
deriving DecidableEq, Repr

/-- A raw (undecoded) catalogue record as returned by the client; the
payload is kept verbatim until `parse_market_catalog` decodes it. -/
structure RawCatalogRecord where
  payload : MarketCatalogue
deriving DecidableEq, Repr

/-- `parse_market_catalog`: the msgspec encode/decode round-trip, an
order-preserving element-wise decode. -/
def parse_market_catalog (catalog : List RawCatalogRecord) : List MarketCatalogue :=
  catalog.map (fun r => r.payload)

/-- Modelled from the spec: the `chunk` helper is imported from
`nautilus_trader.adapters.betfair.parsing.common`, not in this excerpt; the
spec requires partitioning into fixed-size chunks (`lst[i:i+n]` slices). -/
def chunk : List String → Nat → List (List String)
  | _, 0 => []
  | [], _ + 1 => []
  | x :: xs, n + 1 => ((x :: xs).take (n + 1)) :: chunk ((x :: xs).drop (n + 1)) (n + 1)
termination_by l _ => l.length
decreasing_by
  simp only [List.length_drop, List.length_cons]
  omega

/-- `load_markets_metadata`: deduplicate the market ids of the input
markets, partition into chunks of 50, issue one `list_market_catalogue`
request per chunk (fixed projection, `max_results` = chunk size), and
decode the concatenation of the chunk responses.  `respond` is the remote
client; the second component is the ordered list of requests issued. -/
def load_markets_metadata (respond : CatalogueRequest → List RawCatalogRecord)
    (markets : List FlattenedMarket) :
    List MarketCatalogue × List CatalogueRequest :=
  let ids := (markets.map (fun m => m.market_id)).dedup
  let requests := (chunk ids 50).map (fun c =>
    { market_projection := metadataProjection, marketIds := c, max_results := c.length })
  let all_results := (requests.map respond).flatten
  (parse_market_catalog all_results, requests)

/-! Concrete fixtures used by the witness theorems and counterexamples. -/

def catFixture : MarketCatalogue :=
  { event_type := { id := 7, name := "Horse Racing" }
    competition := none
    event :=
      { id := "E1", name := "Test Event", country_code := some "GB"
        open_date := "2023-01-01T00:00:00Z" }
    description := { betting_type := { name := "ODDS" }, market_type := "WIN" }
    market_id := "1.23"
    market_name := "Match Odds"
    market_start_time := "2023-01-01T12:00:00Z"
    runners :=
      [{ runner_id := 1, runner_name := "Runner A", handicap := some "0" },
       { runner_id := 2, runner_name := "Runner B", handicap := some "-0.5" }] }

def defFixture : MarketDefinition :=
  { event_type_id := "7"
    event_type_name := "Horse Racing"
    competition_id := ""
    competition_name := ""
    event_id := "E1"
    event_name := "Test Event"
    country_code := "GB"
    open_date := "2023-01-01T00:00:00Z"
    betting_type := "ODDS"
    market_id := "1.23"
    market_name := "Match Odds"
    market_time := some "2023-01-01T12:00:00Z"
    market_type := "WIN"
    runners :=
      [{ selection_id := some 1, id := some 1, name := some "Runner A", hc := some "0" }] }

def insA : BettingInstrument :=
  { venue_name := "BETFAIR"
    event_type_id := "7"
    event_type_name := "Horse Racing"
    competition_id := ""
    competition_name := ""
    event_id := "E1"
    event_name := "Test Event"
    event_country_code := "GB"
    event_open_date := PdTimestamp.ofString "2023-01-01T00:00:00Z"
    betting_type := "ODDS"
    market_id := "1.23"
    market_name := "Match Odds"
    market_start_time := PdTimestamp.ofString "2023-01-01T12:00:00Z"
    market_type := "WIN"
    selection_id := "1"
    selection_name := "Runner A"
    selection_handicap := "0.0"
    currency := "GBP"
    ts_event := 0
    ts_init := 0
    info := InstrumentInfo.ofCatalog catFixture }

/-- A second instrument with the same composite key components as `insA`
but a different selection name (an ambiguous registry). -/
def insA2 : BettingInstrument :=
  { insA with selection_name := "Runner A duplicate" }

def stA : ProviderState :=
  { instruments := [("1.23-1-0.0", insA)], cache := [], missing_instruments := []
    account_currency := none }

def stAB : ProviderState :=
  { instruments := [("ins-a", insA), ("ins-a2", insA2)], cache := []
    missing_instruments := [], account_currency := none }

def fmFixture : FlattenedMarket :=
  { event_type_name := "Horse Racing"
    event_type_id := "7"
    event_name := "Test Event"
    event_id := "E1"
    event_countryCode := "GB"
    market_name := "Match Odds"
    market_id := "1.23"
    market_exchangeId := "1"
    market_marketType := "WIN"
    market_marketStartTime := "2023-01-01T12:00:00Z"
    market_numberOfWinners := "1" }

/-! Helper lemmas. -/

theorem chunk_succ_length (n : Nat) (l : List String) :
    (chunk l (n + 1)).length = (l.length + n) / (n + 1) := by
  match l with
  | [] =>
    simp only [chunk, List.length_nil, Nat.zero_add]
    symm
    exact Nat.div_eq_of_lt (by omega)
  | x :: xs =>
    rw [chunk]
    rw [List.length_cons]
    have ih := chunk_succ_length n ((x :: xs).drop (n + 1))
    by_cases hle : xs.length + 1 ≤ n + 1
    · have hdrop : (x :: xs).drop (n + 1) = [] := by
        apply List.drop_eq_nil_of_le
        simpa using hle
      rw [hdrop]
      simp only [chunk, List.length_nil, List.length_cons]
      symm
      apply Nat.div_eq_of_lt_le
      · omega
      · omega
    · rw [ih]
      have e2 : ((x :: xs).drop (n + 1)).length + n = xs.length := by
        simp only [List.length_drop, List.length_cons]
        omega
      have e3 : (x :: xs).length + n = xs.length + (n + 1) := by
        simp only [List.length_cons]
        omega
      rw [e2, e3, Nat.add_div_right _ (Nat.succ_pos n)]
termination_by l.length
decreasing_by
  simp only [List.length_drop, List.length_cons]
  omega

theorem chunk_mem_length_le (n : Nat) (l : List String) :
    ∀ c ∈ chunk l (n + 1), c.length ≤ n + 1 := by
  match l with
  | [] =>
    intro c hc
    simp [chunk] at hc
  | x :: xs =>
    intro c hc
    rw [chunk] at hc
    rcases List.mem_cons.mp hc with h | h
    · subst h
      exact List.length_take_le (n + 1) (x :: xs)
    · exact chunk_mem_length_le n ((x :: xs).drop (n + 1)) c h
termination_by l.length
decreasing_by
  simp only [List.length_drop, List.length_cons]
  omega

theorem dedup_length_eq_toFinset_card (l : List String) :
    l.dedup.length = l.toFinset.card := by
  rw [Finset.card_def, List.toFinset_val, Multiset.coe_card]

theorem account_calls_zero_of_some (st : ProviderState) (c c0 : String)
    (hst : st.account_currency = some c0) :
    ∀ n, account_currency_calls st c n = 0 := by
  intro n
  induction n with
  | zero => rfl
  | succ k ih =>
    simp only [account_currency_calls, get_account_currency, hst, Nat.zero_add]
    exact ih

/-! Claim theorems. -/

/-- C1, counterexample: the claim says `get_betting_instrument` normalizes
the handicap before forming the composite cache key, so the cache never
holds two entries with the same (market id, selection id, normalized
handicap).  In the code the cache key is the raw triple: resolving
(`"1.23"`, `"1"`, `"0"`) and then (`"1.23"`, `"1"`, `"0.0"`) — two raw
handicap strings that both normalize to `"0.0"` — leaves two distinct
cache entries whose normalized composite keys coincide, and the second
call performs a fresh scan instead of consulting the first entry. -/
theorem C1_counterexample :
    ((get_betting_instrument (get_betting_instrument stA "1.23" "1" "0").state
        "1.23" "1" "0.0").state.cache.map (fun e => e.1)
      = [("1.23", "1", "0.0"), ("1.23", "1", "0")]) ∧
    ((get_betting_instrument (get_betting_instrument stA "1.23" "1" "0").state
        "1.23" "1" "0.0").state.cache.map
          (fun e => (e.1.1, e.1.2.1, parse_handicap (some e.1.2.2)))
      = [("1.23", "1", "0.0"), ("1.23", "1", "0.0")]) ∧
    (get_betting_instrument (get_betting_instrument stA "1.23" "1" "0").state
        "1.23" "1" "0.0").scanned = true ∧
    parse_handicap (some "0") = parse_handicap (some "0.0") := by
  refine ⟨rfl, rfl, rfl, rfl⟩

/-- C1, amended: `get_betting_instrument` forms the composite cache key
from the raw handicap string (the scan filter alone uses the normalized
handicap), so only calls sharing the same raw triple consult and populate
the same cache entry: after a populating call the cache gains exactly the
raw-keyed entry, and a repeat call with the same raw arguments reads that
entry back without changing the state. -/
theorem C1_amended_raw_key_cache (st : ProviderState) (m s h : String)
    (ins : BettingInstrument)
    (hcache : lookupCache st.cache (m, s, h) = none)
    (hscan : search_instruments st (resolveFilter m s h) = [ins]) :
    (get_betting_instrument st m s h).state.cache = ((m, s, h), ins) :: st.cache ∧
    lookupCache (get_betting_instrument st m s h).state.cache (m, s, h) = some ins ∧
    (get_betting_instrument (get_betting_instrument st m s h).state m s h).instrument
      = some ins ∧
    (get_betting_instrument (get_betting_instrument st m s h).state m s h).state
      = (get_betting_instrument st m s h).state := by
  have hr : get_betting_instrument st m s h =
      { instrument := some ins
        state := { st with cache := ((m, s, h), ins) :: st.cache }
        scanned := true, warned := false } := by
    simp [get_betting_instrument, hcache, hscan]
  rw [hr]
  have hl : lookupCache (((m, s, h), ins) :: st.cache) (m, s, h) = some ins := by
    simp [lookupCache]
  refine ⟨rfl, hl, ?_, ?_⟩
  · simp [get_betting_instrument, hl]
  · simp [get_betting_instrument, hl]

/-- C1, witness for the amended theorem at a concrete state. -/
theorem C1_amended_witness :
    lookupCache stA.cache ("1.23", "1", "0") = none ∧
    search_instruments stA (resolveFilter "1.23" "1" "0") = [insA] ∧
    (get_betting_instrument stA "1.23" "1" "0").state.cache
      = (("1.23", "1", "0"), insA) :: stA.cache :=
  ⟨rfl, rfl, (C1_amended_raw_key_cache stA "1.23" "1" "0" insA rfl rfl).1⟩

/-- C2, counterexample: the claim says every filter containing a key
outside `VALID_MARKET_FILTER_KEYS` makes `load_markets` fail before any
remote call.  The filter `{"selection_id": "123"}` contains such a key,
yet `load_markets` silently drops it, succeeds, and issues one remote
navigation call. -/
theorem C2_counterexample :
    load_markets [] (some [("selection_id", "123")]) = (Except.ok [], 1) ∧
    VALID_MARKET_FILTER_KEYS.contains "selection_id" = false := by
  refine ⟨rfl, rfl⟩

/-- C2, amended: for every market filter containing a key outside
`VALID_MARKET_FILTER_KEYS` *other than the silently dropped keys
`selection_id` and `selection_handicap`*, `load_markets` fails with the
filter assertion error and issues zero remote calls. -/
theorem C2_amended_invalid_key_fails (navigation : List FlattenedMarket)
    (f : List (String × String)) (k v : String)
    (hmem : (k, v) ∈ f)
    (hinvalid : VALID_MARKET_FILTER_KEYS.contains k = false)
    (hk1 : k ≠ "selection_id") (hk2 : k ≠ "selection_handicap") :
    load_markets navigation (some f) = (Except.error LoadError.assertionError, 0) := by
  have hmem2 : (k, v) ∈ dropIrrelevantKeys f := by
    unfold dropIrrelevantKeys
    refine List.mem_filter.mpr ⟨hmem, ?_⟩
    simp [hk1, hk2]
  have hvalid : filterKeysValid (some (dropIrrelevantKeys f)) = false := by
    unfold filterKeysValid
    rw [List.all_eq_false]
    exact ⟨(k, v), hmem2, by simpa using hinvalid⟩
  unfold load_markets
  simp [hvalid]

/-- C2, witness for the amended theorem: the filter `{"foo": "x"}`. -/
theorem C2_amended_witness :
    ("foo", "x") ∈ [(("foo" : String), ("x" : String))] ∧
    VALID_MARKET_FILTER_KEYS.contains "foo" = false ∧
    load_markets [] (some [("foo", "x")]) = (Except.error LoadError.assertionError, 0) :=
  ⟨by simp, rfl,
    C2_amended_invalid_key_fails [] [("foo", "x")] "foo" "x" (by simp) rfl
      (by simp) (by simp)⟩

/-- C3: for any input markets whose set of distinct market ids has size N,
`load_markets_metadata` issues exactly `⌈N/50⌉ = (N + 49) / 50` remote
`list_market_catalogue` requests, each carrying at most 50 market ids with
`max_results` equal to its chunk size and the fixed projection, and the
returned catalog records are the decoded concatenation of the chunk
responses in request order. -/
theorem C3_metadata_batching (respond : CatalogueRequest → List RawCatalogRecord)
    (markets : List FlattenedMarket) :
    (load_markets_metadata respond markets).2.length
      = (((markets.map (fun m => m.market_id)).toFinset.card) + 49) / 50 ∧
    ((load_markets_metadata respond markets).2.all (fun c =>
        decide (c.marketIds.length ≤ 50) && (c.max_results == c.marketIds.length) &&
        (c.market_projection == metadataProjection))) = true ∧
    (load_markets_metadata respond markets).1
      = parse_market_catalog
          (((load_markets_metadata respond markets).2.map respond).flatten) := by
  refine ⟨?_, ?_, rfl⟩
  · show ((chunk ((markets.map (fun m => m.market_id)).dedup) 50).map _).length = _
    rw [List.length_map, chunk_succ_length 49, dedup_length_eq_toFinset_card]
  · rw [List.all_eq_true]
    intro c hc
    have hc2 : c ∈ (chunk ((markets.map (fun m => m.market_id)).dedup) 50).map
        (fun c => ({ market_projection := metadataProjection, marketIds := c
                     max_results := c.length } : CatalogueRequest)) := hc
    obtain ⟨c0, hc0, rfl⟩ := List.mem_map.mp hc2
    simp only [Bool.and_eq_true, beq_iff_eq, decide_eq_true_eq]
    exact ⟨⟨chunk_mem_length_le 49 _ c0 hc0, trivial⟩, trivial⟩

/-- C3, witness: a single market yields one request of one id. -/
theorem C3_witness :
    (load_markets_metadata (fun _ => []) [fmFixture]).2.length
      = ((([fmFixture].map (fun m => m.market_id)).toFinset.card) + 49) / 50 ∧
    ((load_markets_metadata (fun _ => []) [fmFixture]).2.all (fun c =>
        decide (c.marketIds.length ≤ 50) && (c.max_results == c.marketIds.length) &&
        (c.market_projection == metadataProjection))) = true ∧
    (load_markets_metadata (fun _ => []) [fmFixture]).1
      = parse_market_catalog
          (((load_markets_metadata (fun _ => []) [fmFixture]).2.map (fun _ => [])).flatten) :=
  C3_metadata_batching (fun _ => []) [fmFixture]

/-- C4: after a load that leaves exactly one instrument matching the
component filter of a fresh key, `get_betting_instrument` returns that
instrument, a repeated call with the same arguments returns the same
record again, performs no new scan, and leaves the state unchanged. -/
theorem C4_resolve_memoized (st : ProviderState) (m s h : String)
    (ins : BettingInstrument)
    (hcache : lookupCache st.cache (m, s, h) = none)
    (hscan : search_instruments st (resolveFilter m s h) = [ins]) :
    (get_betting_instrument st m s h).instrument = some ins ∧
    (get_betting_instrument (get_betting_instrument st m s h).state m s h).instrument
      = some ins ∧
    (get_betting_instrument (get_betting_instrument st m s h).state m s h).scanned
      = false ∧
    (get_betting_instrument (get_betting_instrument st m s h).state m s h).state
      = (get_betting_instrument st m s h).state := by
  have hr : get_betting_instrument st m s h =
      { instrument := some ins
        state := { st with cache := ((m, s, h), ins) :: st.cache }
        scanned := true, warned := false } := by
    simp [get_betting_instrument, hcache, hscan]
  rw [hr]
  have hl : lookupCache (((m, s, h), ins) :: st.cache) (m, s, h) = some ins := by
    simp [lookupCache]
  refine ⟨rfl, ?_, ?_, ?_⟩ <;> simp [get_betting_instrument, hl]

/-- C4, witness: the single-instrument registry `stA`. -/
theorem C4_witness :
    lookupCache stA.cache ("1.23", "1", "0") = none ∧
    search_instruments stA (resolveFilter "1.23" "1" "0") = [insA] ∧
    (get_betting_instrument stA "1.23" "1" "0").instrument = some insA ∧
    (get_betting_instrument (get_betting_instrument stA "1.23" "1" "0").state
        "1.23" "1" "0").instrument = some insA ∧
    (get_betting_instrument (get_betting_instrument stA "1.23" "1" "0").state
        "1.23" "1" "0").scanned = false :=
  ⟨rfl, rfl, (C4_resolve_memoized stA "1.23" "1" "0" insA rfl rfl).1,
    (C4_resolve_memoized stA "1.23" "1" "0" insA rfl rfl).2.1,
    (C4_resolve_memoized stA "1.23" "1" "0" insA rfl rfl).2.2.1⟩

/-- C5: a runner described through the catalog shape and a runner described
through the streaming-definition shape with the same raw handicap value
produce instrument records with identical `selection_handicap`: both
mapping paths pass the raw handicap through the one shared
`parse_handicap`. -/
theorem C5_shared_handicap_normalization (cat : MarketCatalogue) (d : MarketDefinition)
    (cur1 cur2 : String) (e1 i1 e2 i2 k1 k2 : Nat)
    (hraw : (cat.runners[k1]?).map (fun r => r.handicap)
          = (d.runners[k2]?).map (fun r => r.hc)) :
    ((market_catalog_to_instruments cat cur1 e1 i1)[k1]?).map
        (fun ins => ins.selection_handicap)
      = ((market_definition_to_instruments d cur2 e2 i2)[k2]?).map
          (fun ins => ins.selection_handicap) := by
  unfold market_catalog_to_instruments market_definition_to_instruments
  rw [List.getElem?_map, List.getElem?_map, Option.map_map, Option.map_map]
  have h2 := congrArg (Option.map parse_handicap) hraw
  rw [Option.map_map, Option.map_map] at h2
  exact h2

/-- C5, witness: runner A of the catalog fixture and the single runner of
the definition fixture share the raw handicap `"0"`. -/
theorem C5_witness :
    ((catFixture.runners[0]?).map (fun r => r.handicap)
      = (defFixture.runners[0]?).map (fun r => r.hc)) ∧
    ((market_catalog_to_instruments catFixture "GBP" 0 0)[0]?).map
        (fun ins => ins.selection_handicap)
      = ((market_definition_to_instruments defFixture "GBP" 0 0)[0]?).map
          (fun ins => ins.selection_handicap) :=
  ⟨rfl, C5_shared_handicap_normalization catFixture defFixture "GBP" "GBP" 0 0 0 0 0 0 rfl⟩

/-- C6: on a key whose component-filtered scan yields zero matches,
`get_betting_instrument` returns an absent result on every call, and the
zero-match warning fires only on the first call for each unique
(market id, selection id, *normalized* handicap) tuple: a repeat miss —
even through a different raw handicap string that normalizes to the same
value — emits no further warning. -/
theorem C6_zero_match_warns_once (st : ProviderState) (m s h1 h2 : String)
    (hc1 : lookupCache st.cache (m, s, h1) = none)
    (hc2 : lookupCache st.cache (m, s, h2) = none)
    (hnorm : parse_handicap (some h2) = parse_handicap (some h1))
    (hscan : search_instruments st (resolveFilter m s h1) = [])
    (hmiss : memKey st.missing_instruments (m, s, parse_handicap (some h1)) = false) :
    (get_betting_instrument st m s h1).instrument = none ∧
    (get_betting_instrument st m s h1).warned = true ∧
    (get_betting_instrument (get_betting_instrument st m s h1).state m s h2).instrument
      = none ∧
    (get_betting_instrument (get_betting_instrument st m s h1).state m s h2).warned
      = false := by
  have hr : get_betting_instrument st m s h1 =
      { instrument := none
        state := { st with missing_instruments :=
          (m, s, parse_handicap (some h1)) :: st.missing_instruments }
        scanned := true, warned := true } := by
    simp [get_betting_instrument, hc1, hscan, hmiss]
  rw [hr]
  have hfilter : resolveFilter m s h2 = resolveFilter m s h1 := by
    simp [resolveFilter, hnorm]
  have hc2b : lookupCache ({ st with missing_instruments :=
      (m, s, parse_handicap (some h1)) :: st.missing_instruments } :
        ProviderState).cache (m, s, h2) = none := hc2
  have hscan2 : search_instruments ({ st with missing_instruments :=
      (m, s, parse_handicap (some h1)) :: st.missing_instruments } :
        ProviderState) (resolveFilter m s h2) = [] := by
    rw [hfilter]
    exact hscan
  have hmiss2 : memKey ((m, s, parse_handicap (some h1)) :: st.missing_instruments)
      (m, s, parse_handicap (some h2)) = true := by
    rw [hnorm]
    simp [memKey]
  refine ⟨rfl, rfl, ?_, ?_⟩ <;>
    simp [get_betting_instrument, hc2b, hscan2, hmiss2]

/-- C6, witness: an empty registry, raw handicaps `"0"` and `"0.0"`. -/
theorem C6_witness :
    search_instruments ProviderState.init (resolveFilter "1.23" "9" "0") = [] ∧
    (get_betting_instrument ProviderState.init "1.23" "9" "0").warned = true ∧
    (get_betting_instrument (get_betting_instrument ProviderState.init "1.23" "9" "0").state
        "1.23" "9" "0.0").instrument = none ∧
    (get_betting_instrument (get_betting_instrument ProviderState.init "1.23" "9" "0").state
        "1.23" "9" "0.0").warned = false :=
  ⟨rfl,
    (C6_zero_match_warns_once ProviderState.init "1.23" "9" "0" "0.0" rfl rfl rfl rfl rfl).2.1,
    (C6_zero_match_warns_once ProviderState.init "1.23" "9" "0" "0.0" rfl rfl rfl rfl rfl).2.2.1,
    (C6_zero_match_warns_once ProviderState.init "1.23" "9" "0" "0.0" rfl rfl rfl rfl rfl).2.2.2⟩

/-- C7: when the component-filtered scan finds more than one matching
instrument, `get_betting_instrument` returns the first match and memoizes
it under the composite key — no ambiguity error is raised (the assertion
in the source is commented out). -/
theorem C7_ambiguous_returns_first (st : ProviderState) (m s h : String)
    (i1 i2 : BettingInstrument) (tl : List BettingInstrument)
    (hcache : lookupCache st.cache (m, s, h) = none)
    (hscan : search_instruments st (resolveFilter m s h) = i1 :: i2 :: tl) :
    (get_betting_instrument st m s h).instrument = some i1 ∧
    lookupCache (get_betting_instrument st m s h).state.cache (m, s, h) = some i1 := by
  have hr : get_betting_instrument st m s h =
      { instrument := some i1
        state := { st with cache := ((m, s, h), i1) :: st.cache }
        scanned := true, warned := false } := by
    simp [get_betting_instrument, hcache, hscan]
  rw [hr]
  exact ⟨rfl, by simp [lookupCache]⟩

/-- C7, witness: the two-instrument ambiguous registry `stAB`. -/
theorem C7_witness :
    search_instruments stAB (resolveFilter "1.23" "1" "0") = [insA, insA2] ∧
    (get_betting_instrument stAB "1.23" "1" "0").instrument = some insA ∧
    lookupCache (get_betting_instrument stAB "1.23" "1" "0").state.cache ("1.23", "1", "0")
      = some insA :=
  ⟨rfl, (C7_ambiguous_returns_first stAB "1.23" "1" "0" insA insA2 [] rfl rfl).1,
    (C7_ambiguous_returns_first stAB "1.23" "1" "0" insA insA2 [] rfl rfl).2⟩

/-- C8: `load_markets` removes the keys `selection_id` and
`selection_handicap` from a dict filter before the validity assertion and
before the navigation request, so whenever the remaining keys are valid
the call succeeds and queries navigation with exactly the remaining
filter — in particular a filter carrying `selection_id` alongside
`event_name` does not fail validation and filters only by `event_name`. -/
theorem C8_drops_selection_keys (navigation : List FlattenedMarket)
    (f : List (String × String))
    (hvalid : filterKeysValid (some (dropIrrelevantKeys f)) = true) :
    load_markets navigation (some f)
      = (Except.ok (navigation_to_flatten_markets navigation (dropIrrelevantKeys f)), 1) := by
  unfold load_markets
  simp [hvalid]

/-- C8, witness: the scenario filter
`{"event_name": "Test", "selection_id": "123"}` issues a navigation query
filtered only by `event_name`. -/
theorem C8_witness :
    dropIrrelevantKeys [("event_name", "Test"), ("selection_id", "123")]
      = [("event_name", "Test")] ∧
    filterKeysValid (some (dropIrrelevantKeys
        [("event_name", "Test"), ("selection_id", "123")])) = true ∧
    load_markets [fmFixture] (some [("event_name", "Test"), ("selection_id", "123")])
      = (Except.ok (navigation_to_flatten_markets [fmFixture] (dropIrrelevantKeys
          [("event_name", "Test"), ("selection_id", "123")])), 1) :=
  ⟨rfl, rfl,
    C8_drops_selection_keys [fmFixture] [("event_name", "Test"), ("selection_id", "123")] rfl⟩

/-- C9: `get_account_currency` performs at most one remote
`get_account_details` call per provider lifetime: starting with no
memoized currency, the first call performs exactly one remote call,
stores and returns the fetched code, and any number of subsequent calls
performs zero further remote calls; the total over `n + 1` consecutive
calls is exactly one. -/
theorem C9_account_currency_memoized (st : ProviderState) (c : String)
    (hst : st.account_currency = none) :
    (get_account_currency st c).remote_calls = 1 ∧
    (get_account_currency st c).currency = c ∧
    (get_account_currency st c).state.account_currency = some c ∧
    (∀ n, account_currency_calls (get_account_currency st c).state c n = 0) ∧
    (∀ n, account_currency_calls st c (n + 1) = 1) := by
  have hr : get_account_currency st c =
      { currency := c, state := { st with account_currency := some c }
        remote_calls := 1 } := by
    simp [get_account_currency, hst]
  refine ⟨by rw [hr], by rw [hr], by rw [hr], ?_, ?_⟩
  · intro n
    rw [hr]
    exact account_calls_zero_of_some _ c c rfl n
  · intro n
    simp only [account_currency_calls, hr]
    rw [account_calls_zero_of_some _ c c rfl n]

/-- C9, witness: a fresh provider. -/
theorem C9_witness :
    (get_account_currency ProviderState.init "GBP").remote_calls = 1 ∧
    (get_account_currency ProviderState.init "GBP").currency = "GBP" ∧
    account_currency_calls (get_account_currency ProviderState.init "GBP").state "GBP" 5 = 0 ∧
    account_currency_calls ProviderState.init "GBP" 6 = 1 :=
  ⟨(C9_account_currency_memoized ProviderState.init "GBP" rfl).1,
    (C9_account_currency_memoized ProviderState.init "GBP" rfl).2.1,
    (C9_account_currency_memoized ProviderState.init "GBP" rfl).2.2.2.1 5,
    (C9_account_currency_memoized ProviderState.init "GBP" rfl).2.2.2.2 5⟩

/-- C10: a `get_betting_instrument` call that finds zero matches leaves
the memoization cache and the loaded-instrument registry unchanged (no
negative entry is recorded), so a subsequent call with the still-missing
key performs a fresh scan, and once a later load inserts a matching
instrument the same key resolves successfully. -/
theorem C10_zero_match_no_negative_entry (st : ProviderState) (m s h : String)
    (ins : BettingInstrument)
    (hcache : lookupCache st.cache (m, s, h) = none)
    (hscan : search_instruments st (resolveFilter m s h) = [])
    (hadd : search_instruments (addInstrument (get_betting_instrument st m s h).state ins)
        (resolveFilter m s h) = [ins]) :
    (get_betting_instrument st m s h).instrument = none ∧
    (get_betting_instrument st m s h).state.cache = st.cache ∧
    (get_betting_instrument st m s h).state.instruments = st.instruments ∧
    (get_betting_instrument (get_betting_instrument st m s h).state m s h).scanned = true ∧
    (get_betting_instrument (addInstrument (get_betting_instrument st m s h).state ins)
        m s h).instrument = some ins := by
  rcases hmk : memKey st.missing_instruments (m, s, parse_handicap (some h)) with _ | _
  · have hr : get_betting_instrument st m s h =
        { instrument := none
          state := { st with missing_instruments :=
            (m, s, parse_handicap (some h)) :: st.missing_instruments }
          scanned := true, warned := true } := by
      simp [get_betting_instrument, hcache, hscan, hmk]
    rw [hr] at hadd ⊢
    have hscan2 : search_instruments ({ st with missing_instruments :=
        (m, s, parse_handicap (some h)) :: st.missing_instruments } :
          ProviderState) (resolveFilter m s h) = [] := hscan
    have hcache3 : lookupCache (addInstrument ({ st with missing_instruments :=
        (m, s, parse_handicap (some h)) :: st.missing_instruments } :
          ProviderState) ins).cache (m, s, h) = none := hcache
    refine ⟨rfl, rfl, rfl, ?_, ?_⟩
    · simp [get_betting_instrument, hcache, hscan2, apply_ite ResolveResult.scanned]
    · simp [get_betting_instrument, hcache3, hadd]
  · have hr : get_betting_instrument st m s h =
        { instrument := none, state := st, scanned := true, warned := false } := by
      simp [get_betting_instrument, hcache, hscan, hmk]
    rw [hr] at hadd ⊢
    have hcache3 : lookupCache (addInstrument st ins).cache (m, s, h) = none := hcache
    refine ⟨rfl, rfl, rfl, ?_, ?_⟩
    · simp [get_betting_instrument, hcache, hscan, apply_ite ResolveResult.scanned]
    · simp [get_betting_instrument, hcache3, hadd]

/-- C10, witness: an empty registry, then loading `insA` lets the formerly
missing key resolve. -/
theorem C10_witness :
    search_instruments ProviderState.init (resolveFilter "1.23" "1" "0") = [] ∧
    (get_betting_instrument ProviderState.init "1.23" "1" "0").state.cache
      = ProviderState.init.cache ∧
    (get_betting_instrument (addInstrument
        (get_betting_instrument ProviderState.init "1.23" "1" "0").state insA)
        "1.23" "1" "0").instrument = some insA :=
  ⟨rfl,
    (C10_zero_match_no_negative_entry ProviderState.init "1.23" "1" "0" insA rfl rfl rfl).2.1,
    (C10_zero_match_no_negative_entry ProviderState.init "1.23" "1" "0" insA
      rfl rfl rfl).2.2.2.2⟩

end BetfairProvider
